import Mathlib

/-!
Shallow embedding of the `ez-err` crate (files `src/core.rs` and
`src/slice_ext.rs`) and proofs of the spec's testable properties.

Modelling conventions:
* Rust `usize` values are `Nat`; the only place overflow matters is the
  inclusive-range accessor, which the source guards with an explicit
  `usize::MAX` check before computing `end + 1`, so we carry the constant
  `USIZE_MAX` (64-bit target) and mirror that guard literally.
* Rust slices `[T]` are `List α`; a subslice `&self[s..e]` is
  `(xs.drop s).take (e - s)`.
* `Result<T> = std::result::Result<T, EzError>` is `Except EzError T`.
* `&'static ConstLocation` frames are stored by value; the `flc!()`
  constants below record the file, line and 1-based column of each
  `flc!` invocation in `src/slice_ext.rs`.
* The printing side effect of `handle` is outside the value-level model;
  `handle_or_panic`'s `panic!()` on failure is modelled by the `none`
  result of the underlying `handle`.
-/

namespace EzErr

/-- `ConstLocation` from `src/core.rs` (lines 190-205): an immutable
file/line/column record produced by the `flc!` macro. -/
structure ConstLocation where
  file : String
  line : Nat
  column : Nat
deriving DecidableEq

/-- `ErrorType` from `src/core.rs` (lines 118-149): the closed set of
error kinds. `Custom`'s `code: u32` is a `Nat`. -/
inductive ErrorType where
  | Internal (msg : String)
  | NoneOption
  | IndexOutOfBounds (idx len : Nat)
  | RangeOutOfBounds (s e len : Nat)
  | InvalidRange
  | Message (msg : String)
  | Custom (code : Nat) (name : String) (message : String)
deriving DecidableEq

/-- `EzError` from `src/core.rs` (lines 41-50): an error kind together
with the ordered list of recorded stack frames (the `Box` indirection is
transparent to the value-level model). -/
structure EzError where
  ty : ErrorType
  frames : List ConstLocation
deriving DecidableEq

/-- `EzError::new` (core.rs lines 54-66): fresh error, empty frame list. -/
def EzError.new (ty : ErrorType) : EzError :=
  ⟨ty, []⟩

/-- `EzError::message` (core.rs lines 70-72). -/
def EzError.message (msg : String) : EzError :=
  EzError.new (.Message msg)

/-- `EzError::custom` (core.rs lines 76-82). -/
def EzError.custom (code : Nat) (name : String) (message : String) : EzError :=
  EzError.new (.Custom code name message)

/-- `EzError::add_frame` (core.rs lines 86-88): `self.inner.frames.push(loc)`. -/
def EzError.add_frame (err : EzError) (loc : ConstLocation) : EzError :=
  { err with frames := err.frames ++ [loc] }

/-- `EzError::with` (core.rs lines 91-94): keep `self`'s kind, extend
`self`'s frames with the other error's frames. (`with` is a Lean keyword,
hence the prime.) -/
def EzError.with' (err other : EzError) : EzError :=
  { err with frames := err.frames ++ other.frames }

/-- `type Result<T> = std::result::Result<T, EzError>` (core.rs line 5). -/
abbrev Result (T : Type u) := Except EzError T

/-- `LocData<T> for Result<T>::loc` (core.rs lines 229-240): on `Err`,
push the location; on `Ok`, return `self` unchanged. -/
def Result.loc (r : Result T) (l : ConstLocation) : Result T :=
  match r with
  | .error err => .error (err.add_frame l)
  | .ok v => .ok v

/-- `From<E> for EzError` (core.rs lines 108-115) for any `E: Display`;
the Rust `Display` bound is modelled by an explicit rendering function. -/
def EzError.fromForeign (display : E → String) (e : E) : EzError :=
  EzError.new (.Internal (display e))

/-- `LocData<T> for std::result::Result<T, E>::loc` (core.rs lines
289-309): a foreign `Err` is converted via `From` and gets the location
pushed; a foreign `Ok` passes through. -/
def foreignLoc (display : E → String) (r : Except E T) (l : ConstLocation) :
    Result T :=
  match r with
  | .ok v => .ok v
  | .error e => .error ((EzError.fromForeign display e).add_frame l)

/-- `Handle<T> for Result<T>::handle` (core.rs lines 243-280): `Ok v`
yields `Some v`; `Err e` is printed (a side effect outside the model)
and yields `None`. -/
def Result.handle (r : Result T) : Option T :=
  match r with
  | .ok v => some v
  | .error _ => none

/-- `Handle<T> for Result<T>::handle_or_panic` (core.rs lines 281-286):
unwraps `handle`, calling `panic!()` when it is `None`. The abort is
modelled by the `none` result. -/
def Result.handle_or_panic (r : Result T) : Option T :=
  match r.handle with
  | some v => some v
  | none => none

/-- `handle` free function (core.rs lines 31-36). -/
def handleFn (f : Unit → Result T) : Option T :=
  (f ()).handle

/-- Iterated `loc`: applies `Result.loc` once per location in `ls`, in
order; models `k` nested `.loc(flc!())` call sites, deepest first. -/
def applyLocs (r : Result T) (ls : List ConstLocation) : Result T :=
  ls.foldl Result.loc r

/-! `flc!()` call sites of the `[T]` impls in `src/slice_ext.rs`
(file, line, 1-based column of the `flc!` token). -/

/-- `flc!` in `SliceExt<usize, T> for [T]::eget`, slice_ext.rs line 63. -/
def flcIndexGet : ConstLocation := ⟨"src/slice_ext.rs", 63, 83⟩

/-- `flc!` in `SliceExtMut<usize, T> for [T]::eget_mut`, line 85. -/
def flcIndexGetMut : ConstLocation := ⟨"src/slice_ext.rs", 85, 83⟩

/-- `flc!` on the `InvalidRange` arm of `SliceExt<Range<usize>, [T]>`, line 105. -/
def flcRangeGetInvalid : ConstLocation := ⟨"src/slice_ext.rs", 105, 60⟩

/-- `flc!` on the `RangeOutOfBounds` arm of `SliceExt<Range<usize>, [T]>`, line 112. -/
def flcRangeGetOob : ConstLocation := ⟨"src/slice_ext.rs", 112, 18⟩

/-- `flc!` on the `InvalidRange` arm of `SliceExtMut<Range<usize>, [T]>`, line 141. -/
def flcRangeMutInvalid : ConstLocation := ⟨"src/slice_ext.rs", 141, 60⟩

/-- `flc!` on the `RangeOutOfBounds` arm of `SliceExtMut<Range<usize>, [T]>`, line 148. -/
def flcRangeMutOob : ConstLocation := ⟨"src/slice_ext.rs", 148, 18⟩

/-- `flc!` in `SliceExt<RangeTo<usize>, [T]>::eget`, line 176. -/
def flcRangeToGet : ConstLocation := ⟨"src/slice_ext.rs", 176, 37⟩

/-- `flc!` in `SliceExtMut<RangeTo<usize>, [T]>::eget_mut`, line 190. -/
def flcRangeToGetMut : ConstLocation := ⟨"src/slice_ext.rs", 190, 41⟩

/-- `flc!` in `SliceExt<RangeFrom<usize>, [T]>::eget`, line 204. -/
def flcRangeFromGet : ConstLocation := ⟨"src/slice_ext.rs", 204, 48⟩

/-- `flc!` in `SliceExtMut<RangeFrom<usize>, [T]>::eget_mut`, line 218. -/
def flcRangeFromGetMut : ConstLocation := ⟨"src/slice_ext.rs", 218, 52⟩

/-- `flc!` in `SliceExt<RangeInclusive<usize>, [T]>::eget`, line 261. -/
def flcRangeInclGet : ConstLocation := ⟨"src/slice_ext.rs", 261, 60⟩

/-- `flc!` in `SliceExtMut<RangeInclusive<usize>, [T]>::eget_mut`, line 283. -/
def flcRangeInclGetMut : ConstLocation := ⟨"src/slice_ext.rs", 283, 60⟩

/-- `flc!` in `SliceExt<RangeToInclusive<usize>, [T]>::eget`, line 304. -/
def flcRangeToInclGet : ConstLocation := ⟨"src/slice_ext.rs", 304, 38⟩

/-- `flc!` in `SliceExtMut<RangeToInclusive<usize>, [T]>::eget_mut`, line 318. -/
def flcRangeToInclGetMut : ConstLocation := ⟨"src/slice_ext.rs", 318, 42⟩

/-- `usize::MAX` on the 64-bit targets the crate is built for. -/
def USIZE_MAX : Nat := 2 ^ 64 - 1

/-- `SliceExt<usize, T> for [T]::eget` (slice_ext.rs lines 57-66):
`Ok(&self[index])` when `index < len`, else
`Err(IndexOutOfBounds(index, len)).loc(flc!())`. -/
def egetIndex (xs : List α) (index : Nat) : Result α :=
  if h : index < xs.length then
    .ok (xs.get ⟨index, h⟩)
  else
    Result.loc (.error (EzError.new (.IndexOutOfBounds index xs.length))) flcIndexGet

/-- `SliceExtMut<usize, T> for [T]::eget_mut` (slice_ext.rs lines 79-88):
same checks as `eget`; the value is the element the mutable borrow
points at. -/
def egetMutIndex (xs : List α) (index : Nat) : Result α :=
  if h : index < xs.length then
    .ok (xs.get ⟨index, h⟩)
  else
    Result.loc (.error (EzError.new (.IndexOutOfBounds index xs.length))) flcIndexGetMut

/-- `SliceExt<Range<usize>, [T]> for [T]::eget` (slice_ext.rs lines
101-117): `InvalidRange` when `start > end`, `RangeOutOfBounds` when
`start >= len || end > len`, else `Ok(&self[start..end])`. -/
def egetRange (xs : List α) (s e : Nat) : Result (List α) :=
  if s > e then
    Result.loc (.error (EzError.new .InvalidRange)) flcRangeGetInvalid
  else if s ≥ xs.length ∨ e > xs.length then
    Result.loc (.error (EzError.new (.RangeOutOfBounds s e xs.length))) flcRangeGetOob
  else
    .ok ((xs.drop s).take (e - s))

/-- `SliceExtMut<Range<usize>, [T]> for [T]::eget_mut` (slice_ext.rs
lines 137-153): same checks as the shared version. -/
def egetMutRange (xs : List α) (s e : Nat) : Result (List α) :=
  if s > e then
    Result.loc (.error (EzError.new .InvalidRange)) flcRangeMutInvalid
  else if s ≥ xs.length ∨ e > xs.length then
    Result.loc (.error (EzError.new (.RangeOutOfBounds s e xs.length))) flcRangeMutOob
  else
    .ok ((xs.drop s).take (e - s))

/-- `SliceExt<RangeTo<usize>, [T]> for [T]::eget` (slice_ext.rs lines
173-178): `self.eget(0..end).loc(flc!())`. -/
def egetRangeTo (xs : List α) (e : Nat) : Result (List α) :=
  Result.loc (egetRange xs 0 e) flcRangeToGet

/-- `SliceExtMut<RangeTo<usize>, [T]>::eget_mut` (slice_ext.rs lines 187-192). -/
def egetMutRangeTo (xs : List α) (e : Nat) : Result (List α) :=
  Result.loc (egetMutRange xs 0 e) flcRangeToGetMut

/-- `SliceExt<RangeFrom<usize>, [T]> for [T]::eget` (slice_ext.rs lines
201-206): `self.eget(start..self.len()).loc(flc!())`. -/
def egetRangeFrom (xs : List α) (s : Nat) : Result (List α) :=
  Result.loc (egetRange xs s xs.length) flcRangeFromGet

/-- `SliceExtMut<RangeFrom<usize>, [T]>::eget_mut` (slice_ext.rs lines 215-220). -/
def egetMutRangeFrom (xs : List α) (s : Nat) : Result (List α) :=
  Result.loc (egetMutRange xs s xs.length) flcRangeFromGetMut

/-- `SliceExt<RangeFull, [T]> for [T]::eget` (slice_ext.rs lines
229-234): always `Ok(self)`. -/
def egetFull (xs : List α) : Result (List α) :=
  .ok xs

/-- `SliceExtMut<RangeFull, [T]>::eget_mut` (slice_ext.rs lines 243-248). -/
def egetMutFull (xs : List α) : Result (List α) :=
  .ok xs

/-- `SliceExt<RangeInclusive<usize>, [T]> for [T]::eget` (slice_ext.rs
lines 257-266): `InvalidRange` when `*end == usize::MAX`, else
`self.eget(*start..(*end + 1))` with no extra `.loc`. -/
def egetRangeIncl (xs : List α) (s e : Nat) : Result (List α) :=
  if e = USIZE_MAX then
    Result.loc (.error (EzError.new .InvalidRange)) flcRangeInclGet
  else
    egetRange xs s (e + 1)

/-- `SliceExtMut<RangeInclusive<usize>, [T]>::eget_mut` (slice_ext.rs
lines 279-288). -/
def egetMutRangeIncl (xs : List α) (s e : Nat) : Result (List α) :=
  if e = USIZE_MAX then
    Result.loc (.error (EzError.new .InvalidRange)) flcRangeInclGetMut
  else
    egetMutRange xs s (e + 1)

/-- `SliceExt<RangeToInclusive<usize>, [T]> for [T]::eget` (slice_ext.rs
lines 301-306): `self.eget(0..=end).loc(flc!())`. -/
def egetRangeToIncl (xs : List α) (e : Nat) : Result (List α) :=
  Result.loc (egetRangeIncl xs 0 e) flcRangeToInclGet

/-- `SliceExtMut<RangeToInclusive<usize>, [T]>::eget_mut` (slice_ext.rs
lines 315-320). -/
def egetMutRangeToIncl (xs : List α) (e : Nat) : Result (List α) :=
  Result.loc (egetMutRangeIncl xs 0 e) flcRangeToInclGetMut

/-! Helper lemmas shared by the claim theorems. -/

/-- `loc` applied to a failure whose error was just constructed records
exactly that one location. -/
theorem loc_fresh_error_frames {T : Type u} {k : ErrorType} {l : ConstLocation}
    {err : EzError}
    (h : Result.loc (.error (EzError.new k) : Result T) l = .error err) :
    err.frames = [l] := by
  simp only [Result.loc, EzError.new, EzError.add_frame, Except.error.injEq] at h
  subst h
  rfl

/-- Inversion for `loc` on a failure result: the input was already a
failure and the output appended the location to its frames. -/
theorem loc_error_inv {T : Type u} {r : Result T} {l : ConstLocation} {err : EzError}
    (h : Result.loc r l = .error err) :
    ∃ err0, r = .error err0 ∧ err = ⟨err0.ty, err0.frames ++ [l]⟩ := by
  cases r with
  | ok v => simp [Result.loc] at h
  | error e0 =>
    refine ⟨e0, rfl, ?_⟩
    simp only [Result.loc, Except.error.injEq] at h
    subst h
    rfl

/-- Folding `loc` over a list of locations appends that list to the
frames of a failure. -/
theorem applyLocs_error {T : Type u} (ty : ErrorType)
    (fs ls : List ConstLocation) :
    applyLocs (.error ⟨ty, fs⟩ : Result T) ls = .error ⟨ty, fs ++ ls⟩ := by
  induction ls generalizing fs with
  | nil => simp [applyLocs]
  | cons l ls ih =>
    have h := ih (fs ++ [l])
    simpa [applyLocs, Result.loc, EzError.add_frame, List.append_assoc] using h

/-! Claim theorems. -/

/-- C2: for every slice of length `n`, `eget(n..n)` fails with
`RangeOutOfBounds(n, n, n)` rather than succeeding with an empty
subslice; in particular `eget(0..0)` on the empty slice fails. -/
theorem eget_range_start_eq_len_rejected (xs : List α) :
    egetRange xs xs.length xs.length =
      .error ⟨.RangeOutOfBounds xs.length xs.length xs.length, [flcRangeGetOob]⟩
  ∧ egetRange ([] : List α) 0 0 =
      .error ⟨.RangeOutOfBounds 0 0 0, [flcRangeGetOob]⟩ := by
  constructor
  · simp [egetRange, Result.loc, EzError.new, EzError.add_frame]
  · simp [egetRange, Result.loc, EzError.new, EzError.add_frame]

/-- C3: `loc` on a success is a no-op; `loc` on a failure appends
exactly the given location at the end of the frame list, keeping the
kind and the earlier frames in order; `k` nested applications starting
from a fresh error record exactly those `k` locations in call order,
deepest first. -/
theorem loc_success_noop_and_failure_append {T : Type u} :
    (∀ (v : T) (l : ConstLocation), Result.loc (.ok v) l = .ok v)
  ∧ (∀ (err : EzError) (l : ConstLocation),
      Result.loc (.error err : Result T) l = .error ⟨err.ty, err.frames ++ [l]⟩)
  ∧ (∀ (ty : ErrorType) (ls : List ConstLocation),
      applyLocs (.error (EzError.new ty) : Result T) ls = .error ⟨ty, ls⟩) := by
  refine ⟨fun _ _ => rfl, fun _ _ => rfl, fun ty ls => ?_⟩
  simpa using @applyLocs_error T ty [] ls

/-- C6: converting a foreign failure through `loc` yields kind
`Internal` carrying the foreign error's rendered text and exactly the
one given location; a foreign success passes through unchanged. -/
theorem foreign_loc_spec {E T : Type} (display : E → String) (l : ConstLocation) :
    (∀ e : E, foreignLoc display (.error e : Except E T) l =
      .error ⟨.Internal (display e), [l]⟩)
  ∧ (∀ v : T, foreignLoc display (.ok v : Except E T) l = .ok v) :=
  ⟨fun _ => rfl, fun _ => rfl⟩

/-- C7: merging error `A` with error `B` keeps `A`'s kind and
concatenates the frames, `A`'s first; in particular `[a1, a2]` merged
with `[b1]` gives `[a1, a2, b1]`. -/
theorem with_merge_spec (a b : EzError) :
    a.with' b = ⟨a.ty, a.frames ++ b.frames⟩
  ∧ ∀ (k k' : ErrorType) (a1 a2 b1 : ConstLocation),
      (EzError.mk k [a1, a2]).with' ⟨k', [b1]⟩ = ⟨k, [a1, a2, b1]⟩ :=
  ⟨rfl, fun _ _ _ _ _ => rfl⟩

/-- C8: `handle` on a success returns `some` of the value unchanged and
on a failure returns `none` (it never re-raises); `handle_or_panic`
returns the value on success and on failure reaches the modelled
abort (`none`). -/
theorem handle_spec {T : Type} :
    (∀ v : T, Result.handle (.ok v) = some v)
  ∧ (∀ err : EzError, Result.handle (.error err : Result T) = none)
  ∧ (∀ v : T, Result.handle_or_panic (.ok v) = some v)
  ∧ (∀ err : EzError, Result.handle_or_panic (.error err : Result T) = none) :=
  ⟨fun _ => rfl, fun _ => rfl, fun _ => rfl, fun _ => rfl⟩

/-- C9: full-range access always succeeds and returns the whole
sequence, for every slice including the empty one. -/
theorem eget_full_spec (xs : List α) :
    egetFull xs = .ok xs ∧ egetMutFull xs = .ok xs ∧
    egetFull ([] : List α) = .ok [] :=
  ⟨rfl, rfl, rfl⟩

/-- C4: on a slice of length `n`, `eget(i)` succeeds with the element at
position `i` when `i < n` and fails with `IndexOutOfBounds(i, n)` (one
recorded location) when `i >= n`. -/
theorem eget_index_spec (xs : List α) (i : Nat) :
    (∀ h : i < xs.length, egetIndex xs i = .ok (xs.get ⟨i, h⟩))
  ∧ (xs.length ≤ i →
      egetIndex xs i = .error ⟨.IndexOutOfBounds i xs.length, [flcIndexGet]⟩) := by
  constructor
  · intro h
    simp [egetIndex, h]
  · intro h
    have h' : ¬ i < xs.length := Nat.not_lt.mpr h
    simp [egetIndex, h', Result.loc, EzError.new, EzError.add_frame]

/-- Witness for C4 at the spec's own example `[10, 40, 30]`: index 1
succeeds with 40 and index 3 fails with `IndexOutOfBounds(3, 3)`. -/
theorem eget_index_spec_witness :
    egetIndex ([10, 40, 30] : List Nat) 1 = .ok 40
  ∧ egetIndex ([10, 40, 30] : List Nat) 3 =
      .error ⟨.IndexOutOfBounds 3 3, [flcIndexGet]⟩ :=
  ⟨(eget_index_spec [10, 40, 30] 1).1 (by decide),
   (eget_index_spec [10, 40, 30] 3).2 (by decide)⟩

/-- C5: `eget(s..=e)` fails with `InvalidRange` whenever `e` is
`usize::MAX`, for every slice; otherwise it returns exactly the outcome
of the bounded-range access `eget(s..e+1)`. -/
theorem eget_range_incl_spec (xs : List α) (s e : Nat) :
    (e = USIZE_MAX →
      egetRangeIncl xs s e = .error ⟨.InvalidRange, [flcRangeInclGet]⟩)
  ∧ (e ≠ USIZE_MAX → egetRangeIncl xs s e = egetRange xs s (e + 1)) := by
  constructor
  · intro h
    simp [egetRangeIncl, h, Result.loc, EzError.new, EzError.add_frame]
  · intro h
    simp [egetRangeIncl, h]

/-- Witness for C5: on `[0]`, the end `usize::MAX` is rejected as
`InvalidRange`, and `eget(0..=2)` equals `eget(0..3)`. -/
theorem eget_range_incl_spec_witness :
    egetRangeIncl ([0] : List Nat) 0 USIZE_MAX =
      .error ⟨.InvalidRange, [flcRangeInclGet]⟩
  ∧ egetRangeIncl ([0] : List Nat) 0 2 = egetRange ([0] : List Nat) 0 3 :=
  ⟨(eget_range_incl_spec [0] 0 USIZE_MAX).1 rfl,
   (eget_range_incl_spec [0] 0 2).2 (by decide)⟩

/-- C1 counterexample: the claim asserts `eget(s..e)` succeeds for all
`0 <= s <= e <= n`, but at `s = e = n = 0` (the empty slice) the code
takes the `start >= len` branch and fails with `RangeOutOfBounds(0, 0, 0)`,
so the result is not the empty subslice. -/
theorem eget_range_spec_cex :
    egetRange ([] : List Nat) 0 0 =
      .error ⟨.RangeOutOfBounds 0 0 0, [flcRangeGetOob]⟩
  ∧ egetRange ([] : List Nat) 0 0 ≠ .ok [] := by
  constructor
  · simp [egetRange, Result.loc, EzError.new, EzError.add_frame]
  · simp [egetRange, Result.loc, EzError.new, EzError.add_frame]

/-- C1 amended: for `s <= e <= n` with additionally `s < n`, `eget(s..e)`
succeeds with exactly the length-`e - s` subsequence starting at `s`;
for `s > e` it fails with `InvalidRange`; for `s <= e` it fails with
`RangeOutOfBounds(s, e, n)` both when `e > n` and when `s >= n`
(the latter covering the rejected empty range `n..n`). -/
theorem eget_range_spec_amended (xs : List α) (s e : Nat) :
    (s ≤ e → s < xs.length → e ≤ xs.length →
      egetRange xs s e = .ok ((xs.drop s).take (e - s))
      ∧ ((xs.drop s).take (e - s)).length = e - s
      ∧ ∀ j, j < e - s → ((xs.drop s).take (e - s))[j]? = xs[s + j]?)
  ∧ (e < s → egetRange xs s e = .error ⟨.InvalidRange, [flcRangeGetInvalid]⟩)
  ∧ (s ≤ e → xs.length < e →
      egetRange xs s e = .error ⟨.RangeOutOfBounds s e xs.length, [flcRangeGetOob]⟩)
  ∧ (s ≤ e → xs.length ≤ s →
      egetRange xs s e = .error ⟨.RangeOutOfBounds s e xs.length, [flcRangeGetOob]⟩) := by
  refine ⟨?_, ?_, ?_, ?_⟩
  · intro h1 h2 h3
    have hgt : ¬ s > e := Nat.not_lt.mpr h1
    have hc : ¬ (s ≥ xs.length ∨ e > xs.length) := by
      push_neg
      exact ⟨h2, h3⟩
    refine ⟨by simp [egetRange, hgt, hc], ?_, ?_⟩
    · have hms : e - s ≤ xs.length - s := by omega
      simp [List.length_take, List.length_drop, Nat.min_eq_left hms]
    · intro j hj
      rw [List.getElem?_take_of_lt hj, List.getElem?_drop]
  · intro h
    have hgt : s > e := h
    simp [egetRange, hgt, Result.loc, EzError.new, EzError.add_frame]
  · intro h1 h2
    have hgt : ¬ s > e := Nat.not_lt.mpr h1
    have hc : s ≥ xs.length ∨ e > xs.length := Or.inr h2
    simp [egetRange, hgt, hc, Result.loc, EzError.new, EzError.add_frame]
  · intro h1 h2
    have hgt : ¬ s > e := Nat.not_lt.mpr h1
    have hc : s ≥ xs.length ∨ e > xs.length := Or.inl h2
    simp [egetRange, hgt, hc, Result.loc, EzError.new, EzError.add_frame]

/-- Witness for the amended C1 on `[10, 40, 30]`: `eget(0..2)` succeeds
with `[10, 40]`, `eget(2..1)` is `InvalidRange`, `eget(0..4)` is
`RangeOutOfBounds(0, 4, 3)` and `eget(3..3)` is `RangeOutOfBounds(3, 3, 3)`. -/
theorem eget_range_spec_amended_witness :
    egetRange ([10, 40, 30] : List Nat) 0 2 = .ok [10, 40]
  ∧ egetRange ([10, 40, 30] : List Nat) 2 1 =
      .error ⟨.InvalidRange, [flcRangeGetInvalid]⟩
  ∧ egetRange ([10, 40, 30] : List Nat) 0 4 =
      .error ⟨.RangeOutOfBounds 0 4 3, [flcRangeGetOob]⟩
  ∧ egetRange ([10, 40, 30] : List Nat) 3 3 =
      .error ⟨.RangeOutOfBounds 3 3 3, [flcRangeGetOob]⟩ := by
  refine ⟨?_, ?_, ?_, ?_⟩
  · have h := ((eget_range_spec_amended ([10, 40, 30] : List Nat) 0 2).1
      (by decide) (by decide) (by decide)).1
    simpa using h
  · exact (eget_range_spec_amended ([10, 40, 30] : List Nat) 2 1).2.1 (by decide)
  · exact (eget_range_spec_amended ([10, 40, 30] : List Nat) 0 4).2.2.1
      (by decide) (by decide)
  · exact (eget_range_spec_amended ([10, 40, 30] : List Nat) 3 3).2.2.2
      (by decide) (by decide)

/-! Frame-count lemmas for C10: every directly checked accessor records
exactly one location on failure, and every delegating accessor appends
one more on top of the delegate's. -/

theorem egetIndex_error_frames {xs : List α} {i : Nat} {err : EzError}
    (h : egetIndex xs i = .error err) : err.frames.length = 1 := by
  unfold egetIndex at h
  split at h
  · simp at h
  · simp [loc_fresh_error_frames h]

theorem egetMutIndex_error_frames {xs : List α} {i : Nat} {err : EzError}
    (h : egetMutIndex xs i = .error err) : err.frames.length = 1 := by
  unfold egetMutIndex at h
  split at h
  · simp at h
  · simp [loc_fresh_error_frames h]

theorem egetRange_error_frames {xs : List α} {s e : Nat} {err : EzError}
    (h : egetRange xs s e = .error err) : err.frames.length = 1 := by
  unfold egetRange at h
  split at h
  · simp [loc_fresh_error_frames h]
  · split at h
    · simp [loc_fresh_error_frames h]
    · simp at h

theorem egetMutRange_error_frames {xs : List α} {s e : Nat} {err : EzError}
    (h : egetMutRange xs s e = .error err) : err.frames.length = 1 := by
  unfold egetMutRange at h
  split at h
  · simp [loc_fresh_error_frames h]
  · split at h
    · simp [loc_fresh_error_frames h]
    · simp at h

theorem egetRangeIncl_error_frames {xs : List α} {s e : Nat} {err : EzError}
    (h : egetRangeIncl xs s e = .error err) : err.frames.length = 1 := by
  unfold egetRangeIncl at h
  split at h
  · simp [loc_fresh_error_frames h]
  · exact egetRange_error_frames h

theorem egetMutRangeIncl_error_frames {xs : List α} {s e : Nat} {err : EzError}
    (h : egetMutRangeIncl xs s e = .error err) : err.frames.length = 1 := by
  unfold egetMutRangeIncl at h
  split at h
  · simp [loc_fresh_error_frames h]
  · exact egetMutRange_error_frames h

theorem egetRangeTo_error_frames {xs : List α} {e : Nat} {err : EzError}
    (h : egetRangeTo xs e = .error err) : err.frames.length = 2 := by
  unfold egetRangeTo at h
  obtain ⟨err0, h0, h1⟩ := loc_error_inv h
  have hl := egetRange_error_frames h0
  subst h1
  simp [hl]

theorem egetMutRangeTo_error_frames {xs : List α} {e : Nat} {err : EzError}
    (h : egetMutRangeTo xs e = .error err) : err.frames.length = 2 := by
  unfold egetMutRangeTo at h
  obtain ⟨err0, h0, h1⟩ := loc_error_inv h
  have hl := egetMutRange_error_frames h0
  subst h1
  simp [hl]

theorem egetRangeFrom_error_frames {xs : List α} {s : Nat} {err : EzError}
    (h : egetRangeFrom xs s = .error err) : err.frames.length = 2 := by
  unfold egetRangeFrom at h
  obtain ⟨err0, h0, h1⟩ := loc_error_inv h
  have hl := egetRange_error_frames h0
  subst h1
  simp [hl]

theorem egetMutRangeFrom_error_frames {xs : List α} {s : Nat} {err : EzError}
    (h : egetMutRangeFrom xs s = .error err) : err.frames.length = 2 := by
  unfold egetMutRangeFrom at h
  obtain ⟨err0, h0, h1⟩ := loc_error_inv h
  have hl := egetMutRange_error_frames h0
  subst h1
  simp [hl]

theorem egetRangeToIncl_error_frames {xs : List α} {e : Nat} {err : EzError}
    (h : egetRangeToIncl xs e = .error err) : err.frames.length = 2 := by
  unfold egetRangeToIncl at h
  obtain ⟨err0, h0, h1⟩ := loc_error_inv h
  have hl := egetRangeIncl_error_frames h0
  subst h1
  simp [hl]

theorem egetMutRangeToIncl_error_frames {xs : List α} {e : Nat} {err : EzError}
    (h : egetMutRangeToIncl xs e = .error err) : err.frames.length = 2 := by
  unfold egetMutRangeToIncl at h
  obtain ⟨err0, h0, h1⟩ := loc_error_inv h
  have hl := egetMutRangeIncl_error_frames h0
  subst h1
  simp [hl]

/-- A list of length at least one is nonempty. -/
theorem frames_ne_nil_of_len {fs : List ConstLocation} {k : Nat}
    (h : fs.length = k) (hk : 1 ≤ k) : fs ≠ [] := by
  intro hnil
  subst hnil
  simp at h
  omega

/-- C10: every failure of `eget`/`eget_mut` carries a non-empty location
list; the directly checked shapes (single index, bounded range,
inclusive range) record exactly one location, while the delegating
shapes (`..e`, `s..`, `..=e`) append one adapter location on top, hence
at least two. -/
theorem eget_failure_frame_counts (xs : List α) (i s e : Nat) :
    (∀ err, egetIndex xs i = .error err →
      err.frames ≠ [] ∧ err.frames.length = 1)
  ∧ (∀ err, egetMutIndex xs i = .error err →
      err.frames ≠ [] ∧ err.frames.length = 1)
  ∧ (∀ err, egetRange xs s e = .error err →
      err.frames ≠ [] ∧ err.frames.length = 1)
  ∧ (∀ err, egetMutRange xs s e = .error err →
      err.frames ≠ [] ∧ err.frames.length = 1)
  ∧ (∀ err, egetRangeIncl xs s e = .error err →
      err.frames ≠ [] ∧ err.frames.length = 1)
  ∧ (∀ err, egetMutRangeIncl xs s e = .error err →
      err.frames ≠ [] ∧ err.frames.length = 1)
  ∧ (∀ err, egetRangeTo xs e = .error err →
      err.frames ≠ [] ∧ 2 ≤ err.frames.length)
  ∧ (∀ err, egetMutRangeTo xs e = .error err →
      err.frames ≠ [] ∧ 2 ≤ err.frames.length)
  ∧ (∀ err, egetRangeFrom xs s = .error err →
      err.frames ≠ [] ∧ 2 ≤ err.frames.length)
  ∧ (∀ err, egetMutRangeFrom xs s = .error err →
      err.frames ≠ [] ∧ 2 ≤ err.frames.length)
  ∧ (∀ err, egetRangeToIncl xs e = .error err →
      err.frames ≠ [] ∧ 2 ≤ err.frames.length)
  ∧ (∀ err, egetMutRangeToIncl xs e = .error err →
      err.frames ≠ [] ∧ 2 ≤ err.frames.length) := by
  refine ⟨fun err h => ?_, fun err h => ?_, fun err h => ?_, fun err h => ?_,
    fun err h => ?_, fun err h => ?_, fun err h => ?_, fun err h => ?_,
    fun err h => ?_, fun err h => ?_, fun err h => ?_, fun err h => ?_⟩
  · exact ⟨frames_ne_nil_of_len (egetIndex_error_frames h) (by omega),
      egetIndex_error_frames h⟩
  · exact ⟨frames_ne_nil_of_len (egetMutIndex_error_frames h) (by omega),
      egetMutIndex_error_frames h⟩
  · exact ⟨frames_ne_nil_of_len (egetRange_error_frames h) (by omega),
      egetRange_error_frames h⟩
  · exact ⟨frames_ne_nil_of_len (egetMutRange_error_frames h) (by omega),
      egetMutRange_error_frames h⟩
  · exact ⟨frames_ne_nil_of_len (egetRangeIncl_error_frames h) (by omega),
      egetRangeIncl_error_frames h⟩
  · exact ⟨frames_ne_nil_of_len (egetMutRangeIncl_error_frames h) (by omega),
      egetMutRangeIncl_error_frames h⟩
  · exact ⟨frames_ne_nil_of_len (egetRangeTo_error_frames h) (by omega),
      le_of_eq (egetRangeTo_error_frames h).symm⟩
  · exact ⟨frames_ne_nil_of_len (egetMutRangeTo_error_frames h) (by omega),
      le_of_eq (egetMutRangeTo_error_frames h).symm⟩
  · exact ⟨frames_ne_nil_of_len (egetRangeFrom_error_frames h) (by omega),
      le_of_eq (egetRangeFrom_error_frames h).symm⟩
  · exact ⟨frames_ne_nil_of_len (egetMutRangeFrom_error_frames h) (by omega),
      le_of_eq (egetMutRangeFrom_error_frames h).symm⟩
  · exact ⟨frames_ne_nil_of_len (egetRangeToIncl_error_frames h) (by omega),
      le_of_eq (egetRangeToIncl_error_frames h).symm⟩
  · exact ⟨frames_ne_nil_of_len (egetMutRangeToIncl_error_frames h) (by omega),
      le_of_eq (egetMutRangeToIncl_error_frames h).symm⟩

/-- Witness for C10 on the empty slice with index 0 and range `0..1`:
each accessor's concrete failure satisfies its frame-count bound. -/
theorem eget_failure_frame_counts_witness :
    ((⟨.IndexOutOfBounds 0 0, [flcIndexGet]⟩ : EzError).frames ≠ []
      ∧ (⟨.IndexOutOfBounds 0 0, [flcIndexGet]⟩ : EzError).frames.length = 1)
  ∧ ((⟨.RangeOutOfBounds 0 1 0, [flcRangeGetOob]⟩ : EzError).frames ≠ []
      ∧ (⟨.RangeOutOfBounds 0 1 0, [flcRangeGetOob]⟩ : EzError).frames.length = 1)
  ∧ ((⟨.RangeOutOfBounds 0 2 0, [flcRangeGetOob]⟩ : EzError).frames ≠ []
      ∧ (⟨.RangeOutOfBounds 0 2 0, [flcRangeGetOob]⟩ : EzError).frames.length = 1)
  ∧ ((⟨.RangeOutOfBounds 0 1 0, [flcRangeGetOob, flcRangeToGet]⟩ : EzError).frames ≠ []
      ∧ 2 ≤ (⟨.RangeOutOfBounds 0 1 0, [flcRangeGetOob, flcRangeToGet]⟩ : EzError).frames.length)
  ∧ ((⟨.RangeOutOfBounds 0 0 0, [flcRangeGetOob, flcRangeFromGet]⟩ : EzError).frames ≠ []
      ∧ 2 ≤ (⟨.RangeOutOfBounds 0 0 0, [flcRangeGetOob, flcRangeFromGet]⟩ : EzError).frames.length)
  ∧ ((⟨.RangeOutOfBounds 0 2 0, [flcRangeGetOob, flcRangeToInclGet]⟩ : EzError).frames ≠ []
      ∧ 2 ≤ (⟨.RangeOutOfBounds 0 2 0, [flcRangeGetOob, flcRangeToInclGet]⟩ : EzError).frames.length)
  ∧ ((⟨.IndexOutOfBounds 0 0, [flcIndexGetMut]⟩ : EzError).frames ≠ []
      ∧ (⟨.IndexOutOfBounds 0 0, [flcIndexGetMut]⟩ : EzError).frames.length = 1)
  ∧ ((⟨.RangeOutOfBounds 0 1 0, [flcRangeMutOob]⟩ : EzError).frames ≠ []
      ∧ (⟨.RangeOutOfBounds 0 1 0, [flcRangeMutOob]⟩ : EzError).frames.length = 1)
  ∧ ((⟨.RangeOutOfBounds 0 2 0, [flcRangeMutOob]⟩ : EzError).frames ≠ []
      ∧ (⟨.RangeOutOfBounds 0 2 0, [flcRangeMutOob]⟩ : EzError).frames.length = 1)
  ∧ ((⟨.RangeOutOfBounds 0 1 0, [flcRangeMutOob, flcRangeToGetMut]⟩ : EzError).frames ≠ []
      ∧ 2 ≤ (⟨.RangeOutOfBounds 0 1 0, [flcRangeMutOob, flcRangeToGetMut]⟩ : EzError).frames.length)
  ∧ ((⟨.RangeOutOfBounds 0 0 0, [flcRangeMutOob, flcRangeFromGetMut]⟩ : EzError).frames ≠ []
      ∧ 2 ≤ (⟨.RangeOutOfBounds 0 0 0, [flcRangeMutOob, flcRangeFromGetMut]⟩ : EzError).frames.length)
  ∧ ((⟨.RangeOutOfBounds 0 2 0, [flcRangeMutOob, flcRangeToInclGetMut]⟩ : EzError).frames ≠ []
      ∧ 2 ≤ (⟨.RangeOutOfBounds 0 2 0, [flcRangeMutOob, flcRangeToInclGetMut]⟩ : EzError).frames.length) := by
  have H := eget_failure_frame_counts ([] : List Nat) 0 0 1
  exact ⟨H.1 _ rfl, H.2.2.1 _ rfl, H.2.2.2.2.1 _ rfl,
    H.2.2.2.2.2.2.1 _ rfl, H.2.2.2.2.2.2.2.2.1 _ rfl,
    H.2.2.2.2.2.2.2.2.2.2.1 _ rfl,
    H.2.1 _ rfl, H.2.2.2.1 _ rfl, H.2.2.2.2.2.1 _ rfl,
    H.2.2.2.2.2.2.2.1 _ rfl, H.2.2.2.2.2.2.2.2.2.1 _ rfl,
    H.2.2.2.2.2.2.2.2.2.2.2 _ rfl⟩

end EzErr
